import Mathlib

/-!
# AltDump — verification of the capture / persistence / retrieval engine

Shallow embedding of the AltDump repository's engine:

* `src/electron/storage.cjs` — the file-per-aspect store (items.json +
  embeddings.json + blob files in the vault directory).  This is the store
  the Electron main process actually requires and exports, so it is the
  authoritative implementation modelled here; the SQLite variant in the
  unnamed source part is the historical second implementation.
* `src/electron/preload.cjs` (second half, the Electron main process) —
  the global Alt+D chord listener and the overlay state machine.

Modelling conventions:

* JS numbers are modelled by `ℚ` (the score arithmetic of `smartSearch`),
  wall-clock `Date` values by natural-number millisecond timestamps.
* `uuidv4()` is modelled by a fresh-id counter carried in the vault state;
  item ids are the naturals it hands out.
* JS objects used as string-keyed maps (the embeddings file, bag-of-words
  vectors) are modelled by insertion-ordered association lists; assigning
  to an existing key keeps its position, a new key is appended, matching
  JS object semantics.
* The filesystem is modelled by association lists of (name, bytes); SHA-256
  is modelled by an injective deterministic encoding of the byte list
  (only determinism and distinctness of distinct inputs are ever used).
* `fs` errors that the source catches and logs (e.g. `fs.unlinkSync` on an
  undefined path in `deleteItem`) are modelled by the state being left
  unchanged, which is the observable effect of the catch block.
-/

namespace AltDump

/-- Bytes of a file. -/
abbrev Blob := List Nat

/-- Modelled stand-in for `crypto.createHash("sha256")...digest("hex")`:
a deterministic injective encoding of the byte list.  The source treats the
hash as an opaque content key; nothing below depends on more than that. -/
def sha256 (b : Blob) : String :=
  "sha256:" ++ String.intercalate "," (b.map toString)

/-! ## String helpers shared by the storage model

These model the JS string/`path` primitives the source leans on. -/

/-- Substring containment, `haystack.includes(needle)` in JS. -/
def containsSub (hay needle : String) : Bool :=
  (List.range (hay.toList.length + 1)).any
    (fun i => needle.toList.isPrefixOf (hay.toList.drop i))

/-- `s.toLowerCase()` (characterwise; Lean's `String.toLower` is avoided
throughout because its implementation does not reduce in the kernel). -/
def toLowerStr (s : String) : String := String.mk (s.toList.map Char.toLower)

/-- `s.trim()`: strip whitespace from both ends. -/
def trimStr (s : String) : String :=
  String.mk (((s.toList.dropWhile Char.isWhitespace).reverse.dropWhile
    Char.isWhitespace).reverse)

/-- Split a character list at whitespace characters. -/
def splitChars : List Char → List Char → List String
  | [], acc => [String.mk acc.reverse]
  | c :: rest, acc =>
    if c.isWhitespace then String.mk acc.reverse :: splitChars rest []
    else splitChars rest (c :: acc)

/-- Split a string at whitespace (`/\s+/` up to empty tokens, which every
caller filters away). -/
def splitWs (s : String) : List String := splitChars s.toList []

/-- First line of a string (`s.split('\n')[0]`). -/
def firstLineOf (s : String) : String :=
  String.mk (s.toList.takeWhile (fun c => c ≠ '\n'))

/-- Deduplicate keeping first occurrences, as a JS `Set` iterates. -/
def dedupFirstAux (seen : List String) : List String → List String
  | [] => []
  | x :: rest =>
    if seen.contains x then dedupFirstAux seen rest
    else x :: dedupFirstAux (x :: seen) rest

/-- Keep-first deduplication (`new Set([...])` order). -/
def dedupFirst (l : List String) : List String := dedupFirstAux [] l

/-- `path.basename`: the part after the last `/` or `\`. -/
def jsBasename (p : String) : String :=
  let rec go : List Char → List Char → List Char
    | [], acc => acc
    | c :: rest, acc => if c = '/' ∨ c = '\\' then go rest [] else go rest (acc ++ [c])
  String.mk (go p.toList [])

/-- `path.extname`: from the last `.` of the basename, `""` when there is
no dot or the only dot starts a dotfile. -/
def jsExtname (p : String) : String :=
  let b := (jsBasename p).toList
  let rec lastDot : List Char → Nat → Option Nat → Option Nat
    | [], _, best => best
    | c :: rest, i, best => lastDot rest (i + 1) (if c = '.' ∧ i > 0 then some i else best)
  match lastDot b 0 none with
  | none => ""
  | some i => String.mk (b.drop i)

/-- Replace the first occurrence of `pat` in `s` by the empty string —
JS `s.replace(pat, '')` with a plain-string pattern. -/
def replaceFirst (s pat : String) : String :=
  let sl := s.toList
  let pl := pat.toList
  let rec go : List Char → List Char
    | [] => []
    | c :: rest =>
      if pl.isPrefixOf (c :: rest) ∧ pl ≠ [] then (c :: rest).drop pl.length
      else c :: go rest
  String.mk (go sl)

/-- A `\w` character for JS word boundaries. -/
def isWordChar (c : Char) : Bool := c.isAlphanum ∨ c = '_'

/-- One left-to-right pass of global word-boundary deletion, fuel-indexed
(structural recursion; the fuel is initialised to the list length, which the
list never exceeds, so the fuel never runs out). -/
def replaceWordsGo (pats : List String) : Nat → Option Char → List Char → List Char
  | 0, _, cs => cs
  | _ + 1, _, [] => []
  | fuel + 1, prev, c :: rest =>
    let cs := c :: rest
    let boundaryBefore : Bool := match prev with
      | none => true
      | some pc => ! isWordChar pc
    let hit := pats.find? (fun pat =>
      let pl := pat.toList
      (! pl.isEmpty) && pl.isPrefixOf cs && boundaryBefore &&
        (match cs.drop pl.length with
         | [] => true
         | nc :: _ => ! isWordChar nc))
    match hit with
    | some pat => replaceWordsGo pats fuel pat.toList.getLast? (cs.drop pat.toList.length)
    | none => c :: replaceWordsGo pats fuel (some c) rest

/-- Global word-boundary deletion: `s.replace(/\b(p₁|p₂|…)\b/g, '')`.
Scans left to right; at each position tries the alternatives in order and,
when one matches between word boundaries, deletes it and continues after
the match, as the JS regex engine does. -/
def replaceWordsGlobal (s : String) (pats : List String) : String :=
  String.mk (replaceWordsGo pats s.toList.length none s.toList)

/-! ## Local bag-of-words embeddings (`storage.cjs` lines 126–162) -/

/-- A sparse bag-of-words vector: the JS object `{ word: count }`, an
insertion-ordered association list with unique keys. -/
abbrev Embedding := List (String × Nat)

/-- `embedding[word] = (embedding[word] || 0) + 1` on a JS object: bump an
existing key in place, append a fresh one. -/
def bumpWord : Embedding → String → Embedding
  | [], w => [(w, 1)]
  | (k, n) :: rest, w =>
    if k = w then (k, n + 1) :: rest else (k, n) :: bumpWord rest w

/-- `generateEmbedding(text)`: lowercase, split on whitespace runs, keep
tokens longer than two characters, count occurrences.
(JS splits with `/\s+/`; after the length filter the surviving tokens are
exactly the maximal whitespace-free runs, which is what `String.split`
on whitespace followed by the same filter produces.) -/
def generateEmbedding (text : String) : Embedding :=
  let words := (splitWs (toLowerStr text)).filter (fun w => w.length > 2)
  words.foldl bumpWord []

/-- Key set of a bag-of-words object — `Object.keys`, deduplicated so the
definition is set-like even on association lists with repeated keys. -/
def keysOf (e : Embedding) : List String := dedupFirst (e.map Prod.fst)

/-- `semanticSimilarity(e1, e2)`: Jaccard similarity of the key sets
(`intersection.size / union.size`, and `0` on an empty union).
JS float division is modelled by exact rational division. -/
def semanticSimilarity (e1 e2 : Embedding) : ℚ :=
  let words1 := keysOf e1
  let words2 := keysOf e2
  let inter := words1.filter (fun w => words2.contains w)
  let union := dedupFirst (words1 ++ words2)
  if union.length = 0 then 0 else (inter.length : ℚ) / (union.length : ℚ)

/-! ## The unified item data model (`storage.cjs` lines 727–790) -/

inductive ItemType
  | text
  | image
  | file
  | link
deriving DecidableEq, Repr

/-- The recognised keys of the `metadata` bag.  ISO date strings are
modelled as millisecond timestamps. -/
structure ItemMeta where
  size : Option Nat := none
  mimeType : Option String := none
  filename : Option String := none
  thumbnail : Option String := none
  extractedText : Option String := none
  caption : Option String := none
  url : Option String := none
  pageTitle : Option String := none
  createdAt : Option Nat := none
  source : String := "overlay"
deriving DecidableEq, Repr

/-- A unified item (text, image, file or link).  `path` mirrors the
never-assigned `item.path` field that `deleteItem` reads; every
constructor in the source leaves it absent. -/
structure Item where
  id : Nat
  type : ItemType
  title : String
  category : String
  content : Option String := none
  hash : Option String := none
  storagePath : Option String := none
  path : Option String := none
  searchableText : String
  metadata : ItemMeta
  timestamp : Option Nat := none
deriving DecidableEq, Repr

/-- The metadata block stored next to each vector in `embeddings.json`
(written by `updateItemEmbedding`; never read back by the search path). -/
structure EmbMeta where
  createdAt : Option Nat
  source : String
  type : ItemType
  category : String
  storagePath : Option String
deriving DecidableEq, Repr

/-- One record of `embeddings.json`: `{ vector, metadata }`. -/
structure EmbRecord where
  vector : Embedding
  metadata : EmbMeta
deriving DecidableEq, Repr

/-- A background task scheduled with `setImmediate` and still pending when
the scheduling call returns. -/
inductive EnrichTask
  | metadataExtraction (itemId : Nat) (sourcePath : String)
  | llmEnrichment (itemId : Nat)
deriving DecidableEq, Repr

/-- The persistent state of the engine: `items.json`, `embeddings.json`,
the blob files in the vault directory, the queue of scheduled (not yet
run) enrichment tasks, the fresh-id supply and the clock. -/
structure Vault where
  items : List Item
  embeddings : List (Nat × EmbRecord)
  vaultFiles : List (String × Blob)
  pending : List EnrichTask
  nextId : Nat
  now : Nat
deriving DecidableEq, Repr

/-- Assign to a key of a JS-object-as-map: replace in place or append. -/
def setKey {β : Type} : List (Nat × β) → Nat → β → List (Nat × β)
  | [], k, v => [(k, v)]
  | (k', v') :: rest, k, v =>
    if k' = k then (k', v) :: rest else (k', v') :: setKey rest k v

/-! ## Validation and categorisation (`storage.cjs` lines 762–910) -/

/-- `FILE_TYPE_MAP`: the allow list, extension → category. -/
def FILE_TYPE_MAP : List (String × String) :=
  [(".png", "images"), (".jpg", "images"), (".jpeg", "images"), (".gif", "images"),
   (".webp", "images"), (".bmp", "images"), (".svg", "images"), (".ico", "images"),
   (".pdf", "documents"), (".doc", "documents"), (".docx", "documents"),
   (".txt", "documents"), (".rtf", "documents"), (".tex", "documents"),
   (".mp4", "videos"), (".mkv", "videos"), (".webm", "videos"),
   (".avi", "videos"), (".mov", "videos"),
   (".csv", "csv"), (".tsv", "csv")]

/-- `REJECTED_TYPES`: the reject list (audio, executables, archives, system). -/
def REJECTED_TYPES : List String :=
  [".mp3", ".wav", ".flac", ".aac", ".wma", ".m4a", ".ogg", ".opus",
   ".exe", ".msi", ".bat", ".cmd", ".com", ".scr", ".vbs", ".ps1",
   ".apk", ".app", ".deb", ".rpm",
   ".zip", ".rar", ".7z", ".tar", ".gz", ".bz2", ".iso", ".dmg",
   ".sys", ".dll", ".so", ".dylib", ".icns", ".jar", ".class", ".pyc"]

/-- `isRejectedFile(filePath)`. -/
def isRejectedFile (filePath : String) : Bool :=
  REJECTED_TYPES.contains (toLowerStr (jsExtname filePath))

/-- `getRejectionReason(filePath)`. -/
def getRejectionReason (filePath : String) : String :=
  let ext := toLowerStr (jsExtname filePath)
  if ext = "" then "File has no extension"
  else if [".mp3", ".wav", ".flac", ".aac", ".wma", ".m4a", ".ogg", ".opus"].contains ext then
    "Audio files not supported"
  else if [".exe", ".msi", ".bat", ".cmd", ".com", ".scr", ".vbs", ".ps1", ".apk", ".app",
           ".deb", ".rpm"].contains ext then
    "Executable files not allowed"
  else if [".zip", ".rar", ".7z", ".tar", ".gz", ".bz2", ".iso", ".dmg"].contains ext then
    "Archive files not supported"
  else if [".sys", ".dll", ".so", ".dylib", ".icns", ".jar", ".class", ".pyc", ".o"].contains ext then
    "System files not supported"
  else "File type not supported"

/-- `detectCategoryFromFile(filePath)`: allow-list lookup with fallback
`"documents"`. -/
def detectCategoryFromFile (filePath : String) : String :=
  (FILE_TYPE_MAP.lookup (toLowerStr (jsExtname filePath))).getD "documents"

/-- `isURLContent(text)`: the regex `^(https?:\/\/|www\.)\S+` (case
insensitive) against the trimmed text — one of the three prefixes followed
by at least one non-whitespace character. -/
def isURLContent (text : String) : Bool :=
  let cs := (trimStr text).toList
  let ls := cs.map Char.toLower
  let chk (p : String) : Bool :=
    p.toList.isPrefixOf ls &&
      (match cs.drop p.toList.length with
       | c :: _ => ! c.isWhitespace
       | [] => false)
  chk "http://" || chk "https://" || chk "www."

/-- Count occurrences of a character. -/
def countChar (s : String) (c : Char) : Nat := s.toList.count c

/-- Count non-overlapping occurrences of `"=>"` (as `/=>/g` does; the
pattern cannot overlap itself, so adjacent-pair counting coincides). -/
def countArrow (s : String) : Nat :=
  let rec go : List Char → Nat
    | '=' :: '>' :: rest => 1 + go rest
    | _ :: rest => go rest
    | [] => 0
  go s.toList

/-- The code-keyword list of `detectCategoryFromText`. -/
def codeKeywords : List String :=
  ["function ", "const ", "let ", "var ", "class ", "import ", "export ",
   "require(", "ipcmain.", "ipcrenderer.", "async ", "await ", "public ",
   "private ", "def ", "#include"]

/-- `detectCategoryFromText(text)`. -/
def detectCategoryFromText (text : String) : String :=
  let trimmed := trimStr text
  if isURLContent trimmed then "links"
  else
    let lower := toLowerStr trimmed
    if codeKeywords.any (fun kw => containsSub lower kw) then "code"
    else
      let semiCount := countChar trimmed ';'
      let braceCount := countChar trimmed '{' + countChar trimmed '}'
      let arrowCount := countArrow trimmed
      if semiCount + braceCount + arrowCount ≥ 3 then "code"
      else if trimmed.length > 500 then "notes"
      else "ideas"

/-- `generateTextTitle(text)`: the URL banner or the (truncated) first
line. -/
def generateTextTitle (text : String) : String :=
  let trimmed := trimStr text
  if isURLContent trimmed then
    "Link: " ++ String.mk (trimmed.toList.take 50) ++
      (if trimmed.length > 50 then "..." else "")
  else
    let firstLine := trimStr (firstLineOf trimmed)
    if firstLine.length > 50 then String.mk (firstLine.toList.take 47) ++ "..."
    else if firstLine = "" then "Untitled" else firstLine

/-- `getMimeType(filePath)`. -/
def getMimeType (filePath : String) : String :=
  let ext := toLowerStr (jsExtname filePath)
  ((([(".png", "image/png"), (".jpg", "image/jpeg"), (".jpeg", "image/jpeg"),
      (".gif", "image/gif"), (".webp", "image/webp"), (".bmp", "image/bmp"),
      (".svg", "image/svg+xml"), (".pdf", "application/pdf"),
      (".doc", "application/msword"),
      (".docx", "application/vnd.openxmlformats-officedocument.wordprocessingml.document"),
      (".txt", "text/plain"), (".csv", "text/csv"), (".mp4", "video/mp4"),
      (".mkv", "video/x-matroska"), (".webm", "video/webm"),
      (".avi", "video/x-msvideo"), (".mov", "video/quicktime")] : List (String × String)).lookup
      ext).getD "application/octet-stream")

/-! ## Item creation, persistence and deletion
(`storage.cjs` lines 148–162, 545–560, 1282–1464) -/

/-- `computeItemEmbedding(item)`: the text fed to `generateEmbedding`,
chosen by item type. -/
def computeItemEmbedding (item : Item) : Embedding :=
  let text :=
    match item.type with
    | .text => item.content.getD ""
    | .link =>
      item.title ++ " " ++ (item.metadata.url.getD "") ++ " " ++
        (item.metadata.pageTitle.getD "")
    | _ =>
      item.title ++ " " ++ (item.metadata.filename.getD "") ++ " " ++
        (item.metadata.extractedText.getD "")
  generateEmbedding text

/-- `updateItemEmbedding(item)`: write `{ vector, metadata }` under the
item's id into `embeddings.json`. -/
def updateItemEmbedding (item : Item) (v : Vault) : Vault :=
  { v with
    embeddings := setKey v.embeddings item.id
      { vector := computeItemEmbedding item
        metadata :=
          { createdAt := item.metadata.createdAt
            source := if item.metadata.source = "" then "overlay" else item.metadata.source
            type := item.type
            category := item.category
            storagePath := item.storagePath } } }

/-- `OLLAMA_ENABLED` (`storage.cjs` line 25). -/
def OLLAMA_ENABLED : Bool := true

/-- `scheduleLLMEnrichment(item)`: enqueue a background task; it has not
run when the scheduling call returns. -/
def scheduleLLMEnrichment (item : Item) (v : Vault) : Vault :=
  if OLLAMA_ENABLED then
    { v with pending := v.pending ++ [EnrichTask.llmEnrichment item.id] }
  else v

/-- `scheduleMetadataExtraction(item, sourceFilePath)`: enqueue a
background task; it has not run when the scheduling call returns. -/
def scheduleMetadataExtraction (item : Item) (sourcePath : String) (v : Vault) : Vault :=
  { v with pending := v.pending ++ [EnrichTask.metadataExtraction item.id sourcePath] }

/-- `createTextItem(text)`.  Consumes one fresh id from the uuid supply. -/
def createTextItem (text : String) (v : Vault) : Item × Vault :=
  let category := detectCategoryFromText text
  let title := generateTextTitle text
  let item : Item :=
    { id := v.nextId
      type := .text
      title := title
      category := category
      content := some text
      searchableText := toLowerStr text
      metadata := { createdAt := some v.now, source := "overlay" } }
  (item, { v with nextId := v.nextId + 1 })

/-- `createLinkItem(url, title)`. -/
def createLinkItem (url : String) (title : Option String) (v : Vault) : Item × Vault :=
  let cleanUrl := trimStr url
  let linkTitle := (title.filter (· ≠ "")).getD cleanUrl
  let item : Item :=
    { id := v.nextId
      type := .link
      title := linkTitle
      category := "links"
      searchableText := toLowerStr cleanUrl
      metadata :=
        { url := some cleanUrl
          pageTitle := title
          createdAt := some v.now
          source := "overlay" } }
  (item, { v with nextId := v.nextId + 1 })

/-- The source filesystem the ingest call reads from: path → bytes. -/
abbrev SrcFS := List (String × Blob)

/-- The vault-directory file name of a blob:
`fileHash + path.extname(fileName)`. -/
def vaultFileName (filePath : String) (bytes : Blob) : String :=
  sha256 bytes ++ jsExtname (jsBasename filePath)

/-- The item the success branch of `createFileItem` builds. -/
def fileItemOf (filePath : String) (fileContent : Blob) (v : Vault) : Item :=
  let fileName := jsBasename filePath
  let category := detectCategoryFromFile filePath
  { id := v.nextId
    type := if category = "images" then .image else .file
    title := fileName
    category := category
    hash := some (sha256 fileContent)
    storagePath := some (vaultFileName filePath fileContent)
    searchableText := toLowerStr fileName
    metadata :=
      { size := some fileContent.length
        mimeType := some (getMimeType filePath)
        filename := some fileName
        createdAt := some v.now
        source := "overlay" } }

/-- The state the success branch of `createFileItem` leaves: the blob
copied into the vault directory unless a file of that name already
exists, the metadata-extraction task scheduled, the initial embedding
written, one uuid consumed. -/
def fileVaultOf (filePath : String) (fileContent : Blob) (v : Vault) : Vault :=
  let vaultPath := vaultFileName filePath fileContent
  let vaultFiles' :=
    if (v.vaultFiles.lookup vaultPath).isSome then v.vaultFiles
    else v.vaultFiles ++ [(vaultPath, fileContent)]
  let item := fileItemOf filePath fileContent v
  let v1 := { v with vaultFiles := vaultFiles', nextId := v.nextId + 1 }
  let v2 := scheduleMetadataExtraction item filePath v1
  updateItemEmbedding item v2

/-- `createFileItem(filePath)`.  Validates, hashes, copies the blob into
the vault directory (skipping the copy when a file of that name already
exists), schedules metadata extraction and writes the initial embedding.
Thrown errors are returned in the first component; the second component is
the state as the function leaves it on that path. -/
def createFileItem (sf : SrcFS) (filePath : String) (v : Vault) :
    Except String Item × Vault :=
  if trimStr filePath = "" then
    (.error "File path is required and must be a non-empty string", v)
  else
    match sf.lookup filePath with
    | none => (.error ("File does not exist: " ++ filePath), v)
    | some fileContent =>
      if isRejectedFile filePath then
        (.error ("File rejected: " ++ getRejectionReason filePath), v)
      else
        (.ok (fileItemOf filePath fileContent v), fileVaultOf filePath fileContent v)

/-- `addItem(item)`: append to `items.json`, write the item's embedding,
fire-and-forget LLM enrichment, return the item. -/
def addItem (item : Item) (v : Vault) : Item × Vault :=
  let v1 := { v with items := v.items ++ [item] }
  let v2 := updateItemEmbedding item v1
  let v3 := scheduleLLMEnrichment item v2
  (item, v3)

/-- `addTextItem(text)` — the `ingest_text` entry point. -/
def addTextItem (text : String) (v : Vault) : Item × Vault :=
  let (item, v') := createTextItem text v
  addItem item v'

/-- `ingest_link`: `createLinkItem` followed by `addItem`. -/
def addLinkItem (url : String) (title : Option String) (v : Vault) : Item × Vault :=
  let (item, v') := createLinkItem url title v
  addItem item v'

/-- `addFileItem(filePath)` — the `ingest_file` entry point. -/
def addFileItem (sf : SrcFS) (filePath : String) (v : Vault) :
    Except String Item × Vault :=
  match createFileItem sf filePath v with
  | (.error e, v') => (.error e, v')
  | (.ok item, v') =>
    let (item', v'') := addItem item v'
    (.ok item', v'')

/-- `deleteItem(id)`: for a `file`-typed item it attempts
`fs.unlinkSync(item.path)` — `path` is never set by any constructor, so
the call throws and is caught, leaving the blob in place; then the record
is filtered out of `items.json`.  Embeddings are not touched. -/
def deleteItem (id : Nat) (v : Vault) : Vault :=
  let item? := v.items.find? (fun i => i.id = id)
  let vaultFiles' :=
    match item? with
    | some item =>
      if item.type = .file then
        match item.path with
        | some p => v.vaultFiles.filter (fun f => f.1 ≠ p)
        | none => v.vaultFiles
      else v.vaultFiles
    | none => v.vaultFiles
  { v with
    items := v.items.filter (fun i => i.id ≠ id)
    vaultFiles := vaultFiles' }

/-! ## Intent parsing (`storage.cjs` lines 34–123) -/

def MS_PER_DAY : Int := 86400000

/-- Start of the day containing `t` (the `setHours(0,0,0,0)` calls;
timezone-free model). -/
def dayStart (t : Int) : Int := t - t % MS_PER_DAY

/-- A time range `{ start, end }` (`end` being a Lean keyword, the fields
are `tStart`/`tEnd`). -/
structure TimeRange where
  tStart : Int
  tEnd : Int
deriving DecidableEq, Repr

/-- The `timeSignals` table, phrase → range, in `Object.entries` order.
`"last month"` subtracts a calendar month in the source; it is
approximated by 30 days here (no claim depends on it). -/
def timeSignals (now : Nat) : List (String × TimeRange) :=
  [("today", ⟨dayStart now, now⟩),
   ("yesterday", ⟨dayStart now - MS_PER_DAY, dayStart now - 1⟩),
   ("last week", ⟨dayStart ((now : Int) - 7 * MS_PER_DAY), now⟩),
   ("last month", ⟨dayStart ((now : Int) - 30 * MS_PER_DAY), now⟩)]

/-- The `typeSignals` table, type → keywords, in `Object.entries` order. -/
def typeSignals : List (String × List String) :=
  [("image", ["image", "picture", "photo", "screenshot", "png", "jpg", "jpeg"]),
   ("note", ["note", "notes", "text", "idea", "ideas"]),
   ("file", ["file", "document", "pdf", "doc", "video"]),
   ("link", ["link", "url", "website", "http"])]

/-- The parsed search intent. -/
structure SearchIntent where
  timeFilter : Option TimeRange
  timePhrase : Option String
  contentType : Option String
  topicKeywords : Option String
  originalQuery : String
deriving DecidableEq, Repr

/-- `parseSearchIntent(query)`: time-phrase and content-type detection by
substring containment, then keyword stripping to obtain the topic words. -/
def parseSearchIntent (query : String) (now : Nat) : SearchIntent :=
  let lowerQuery := toLowerStr query
  let timeEntry := (timeSignals now).find? (fun e => containsSub lowerQuery e.1)
  let timeFilter := timeEntry.map (·.2)
  let typeEntry := typeSignals.find? (fun e => e.2.any (fun kw => containsSub lowerQuery kw))
  let contentType := typeEntry.map (·.1)
  let afterTime := ((timeSignals now).map (·.1)).foldl replaceFirst lowerQuery
  let afterTypes := (typeSignals.foldr (fun e acc => e.2 ++ acc) []).foldl replaceFirst afterTime
  let topic := trimStr (replaceWordsGlobal afterTypes
    ["show", "find", "open", "get", "search", "look for"])
  { timeFilter := timeFilter
    timePhrase :=
      if timeFilter.isSome then
        ((timeSignals now).find? (fun e => containsSub lowerQuery e.1)).map (·.1)
      else none
    contentType := contentType
    topicKeywords := if topic = "" then none else some topic
    originalQuery := query }

/-! ## Smart search (`storage.cjs` lines 567–725) -/

/-- `(item.metadata && item.metadata.createdAt) || item.timestamp || null`. -/
def itemCreatedAt (item : Item) : Option Nat :=
  item.metadata.createdAt <|> item.timestamp

/-- An item decorated with its `_searchScore` components. -/
structure Scored where
  item : Item
  searchScore : ℚ
  semanticScore : ℚ
  recencyScore : ℚ
  typeScore : ℚ
deriving DecidableEq, Repr

/-- Insert into a descending-by-score list, after all earlier elements of
equal score. -/
def insertScored (x : Scored) : List Scored → List Scored
  | [] => [x]
  | y :: rest =>
    if y.searchScore > x.searchScore then y :: insertScored x rest
    else x :: y :: rest

/-- `scoredItems.sort((a, b) => b._searchScore - a._searchScore)`:
JS `Array.prototype.sort` is stable, so the source produces the unique
stable descending order, modelled by this insertion sort. -/
def sortByScoreDesc : List Scored → List Scored
  | [] => []
  | x :: rest => insertScored x (sortByScoreDesc rest)

/-- The time-filter clause of the `smartSearch` item filter. -/
def passesTimeFilter (intent : SearchIntent) (item : Item) : Bool :=
  match intent.timeFilter with
  | none => true
  | some r =>
    match itemCreatedAt item with
    | none => false
    | some t => ! ((t : Int) < r.tStart ∨ (t : Int) > r.tEnd)

/-- The content-type clause of the `smartSearch` item filter. -/
def passesTypeFilter (intent : SearchIntent) (item : Item) : Bool :=
  match intent.contentType with
  | none => true
  | some ct =>
    if ct = "image" then item.type = .image ∨ item.category = "images"
    else if ct = "note" then
      item.type = .text ∨ item.category = "notes" ∨ item.category = "ideas"
    else if ct = "link" then ! (item.type ≠ .link ∧ item.category ≠ "links")
    else if ct = "file" then
      ! (! (item.type = .image ∨ item.type = .file) ∧
         ! (["documents", "images", "videos", "csv"].contains item.category))
    else true

/-- `recencyScore`: `max(0, 1 - ageInDays / 30)` with
`ageInDays = (Date.now() - createdAt) / 86 400 000`. -/
def recencyScoreOf (now : Nat) (item : Item) : ℚ :=
  match itemCreatedAt item with
  | none => 0
  | some t => max 0 (1 - ((now : ℚ) - (t : ℚ)) / (MS_PER_DAY : ℚ) / 30)

/-- `typeScore`: 2 when the detected content type matches the item type,
1 otherwise. -/
def typeScoreOf (intent : SearchIntent) (item : Item) : ℚ :=
  match intent.contentType with
  | none => 1
  | some ct =>
    if ct = "image" ∧ item.type = .image then 2
    else if ct = "note" ∧ item.type = .text then 2
    else if ct = "link" ∧ item.type = .link then 2
    else if ct = "file" ∧ (item.type = .image ∨ item.type = .file) then 2
    else 1

/-- Score one filtered item: hybrid of semantic similarity, recency and
type relevance (`finalScore = 0.6·semantic + 0.3·recency + 0.1·type`). -/
def scoreItem (now : Nat) (intent : SearchIntent) (queryEmbedding : Embedding)
    (effEmb : List (Nat × EmbRecord)) (item : Item) : Scored :=
  let itemEmbedding := ((effEmb.lookup item.id).map (·.vector)).getD []
  let semanticScore := semanticSimilarity queryEmbedding itemEmbedding
  let recencyScore := recencyScoreOf now item
  let typeScore := typeScoreOf intent item
  { item := item
    searchScore := semanticScore * (6 / 10) + recencyScore * (3 / 10) + typeScore * (1 / 10)
    semanticScore := semanticScore
    recencyScore := recencyScore
    typeScore := typeScore }

/-- The record the search-path backfill writes for one item. -/
def backfillRecordOf (item : Item) : EmbRecord :=
  { vector := computeItemEmbedding item
    metadata :=
      { createdAt := itemCreatedAt item
        source := if item.metadata.source = "" then "overlay" else item.metadata.source
        type := item.type
        category := item.category
        storagePath := item.storagePath } }

/-- The one-time backfill `smartSearch` performs when items exist but the
embeddings file is empty. -/
def backfillEmbeddings (items : List Item) : List (Nat × EmbRecord) :=
  items.foldl (fun acc item => setKey acc item.id (backfillRecordOf item)) []

/-- The value `smartSearch` resolves with. -/
structure SearchOut where
  results : List Scored
  explanation : String
  intent : SearchIntent
  totalItems : Nat
  filteredCount : Nat
deriving DecidableEq, Repr

/-- `smartSearch(query)`.  Returns the search output together with the
state it leaves behind — the embeddings file is rewritten when (and only
when) items exist and it was empty. -/
def smartSearch (query : String) (v : Vault) : SearchOut × Vault :=
  let intent := parseSearchIntent query v.now
  let items := v.items
  if items.isEmpty then
    ({ results := []
       explanation := "No items in vault"
       intent := intent
       totalItems := 0
       filteredCount := 0 }, v)
  else
    let embeddings := v.embeddings
    let effectiveEmbeddings :=
      if embeddings.isEmpty then backfillEmbeddings items else embeddings
    let v' :=
      if embeddings.isEmpty then { v with embeddings := backfillEmbeddings items } else v
    let queryEmbedding := generateEmbedding (intent.topicKeywords.getD query)
    let filteredItems := items.filter
      (fun item => passesTimeFilter intent item && passesTypeFilter intent item)
    let scoredItems := filteredItems.map
      (scoreItem v.now intent queryEmbedding effectiveEmbeddings)
    let results := (sortByScoreDesc scoredItems).take 20
    let explanation :=
      if intent.contentType.isSome ∧ intent.timeFilter.isSome then
        "Showing " ++ intent.contentType.getD "" ++ "s from " ++
          intent.timePhrase.getD "recent period"
      else if intent.contentType.isSome then
        "Showing " ++ intent.contentType.getD "" ++ "s"
      else if intent.timeFilter.isSome then
        "Showing items from " ++ intent.timePhrase.getD "recent period"
      else if intent.topicKeywords.isSome then
        "Showing results related to \"" ++ intent.topicKeywords.getD "" ++ "\""
      else "Showing all items"
    ({ results := results
       explanation := explanation
       intent := intent
       totalItems := items.length
       filteredCount := filteredItems.length }, v')

/-! ## Overlay controller: Alt+D chord machine
(`preload.cjs` lines 344–415 and 876–1078)

The machine's variables: the physical key states, the overlay state
variable, `stateBeforePressing`, the pending 400 ms hold timer, the
`isDraggingInOverlay` flag and the (write-only) `pressStartTime`.
Window visibility side effects are not part of the machine's state. -/

/-- The overlay state variable.  `error` appears only in the dead
reopen-on-failure comparison; no assignment ever produces it. -/
inductive OState
  | hidden
  | pressing
  | latched
  | saving
  | error
deriving DecidableEq, Repr

/-- The controller state. -/
structure Uio where
  alt : Bool
  d : Bool
  overlayState : OState
  stateBefore : Option OState
  timerPending : Bool
  dragging : Bool
  pressStart : Option Nat
deriving DecidableEq, Repr

/-- `setOverlayState(newState)`: no-op on the same state; otherwise clear
the hold timer, record the state, and per-state bookkeeping — entering
`pressing` from anything but `pressing`/`saving` remembers the previous
state and starts the hold timer; `hidden`/`latched` clear the memory. -/
def setOverlayState (newState : OState) (s : Uio) : Uio :=
  if s.overlayState = newState then s
  else
    let previous := s.overlayState
    let s1 := { s with overlayState := newState, timerPending := false }
    match newState with
    | .hidden => { s1 with stateBefore := none }
    | .pressing =>
      let s2 :=
        if previous ≠ .pressing ∧ previous ≠ .saving then
          { s1 with stateBefore := some previous }
        else s1
      { s2 with timerPending := true }
    | .latched => { s1 with stateBefore := none }
    | .saving => s1
    | .error => s1

/-- `handleAltDChord()`: both chord keys are down. -/
def handleAltDChord (s : Uio) : Uio :=
  if s.overlayState = .saving then s
  else if s.dragging then setOverlayState .latched s
  else if s.overlayState = .hidden ∧ s.stateBefore = some .error then
    setOverlayState .pressing s
  else if s.overlayState = .hidden then setOverlayState .pressing s
  else if s.overlayState = .latched then setOverlayState .pressing s
  else s

/-- `handleAltDRelease()`: the chord was broken. -/
def handleAltDRelease (s : Uio) : Uio :=
  if s.overlayState = .saving then s
  else if s.overlayState = .pressing then
    match s.stateBefore with
    | some .hidden => setOverlayState .latched s
    | some .latched => setOverlayState .hidden s
    | _ => setOverlayState .hidden s
  else s

/-- The keys the hook distinguishes. -/
inductive UKey
  | altKey
  | dKey
  | otherKey
deriving DecidableEq, Repr

/-- The `keydown` hook handler: record the key (only when not already
down), perhaps start `pressStartTime`, and fire the chord handler when
both keys are now down. -/
def keydownStep (k : UKey) (t : Nat) (s : Uio) : Uio :=
  match k with
  | .altKey =>
    let s1 :=
      if ! s.alt then
        let s' := { s with alt := true }
        if s'.pressStart = none ∧ ! s.d then { s' with pressStart := some t } else s'
      else s
    if s1.alt ∧ s1.d then handleAltDChord s1 else s1
  | .dKey =>
    let s1 :=
      if ! s.d then
        let s' := { s with d := true }
        if s'.pressStart = none ∧ ! s.alt then { s' with pressStart := some t } else s'
      else s
    if s1.alt ∧ s1.d then handleAltDChord s1 else s1
  | .otherKey => s

/-- The `keyup` hook handler: record the key up immediately; when the
chord had been active, clear `pressStartTime` and fire the release
handler at once — there is no debounce window. -/
def keyupStep (k : UKey) (s : Uio) : Uio :=
  match k with
  | .altKey =>
    let wasChordActive := s.alt ∧ s.d
    let s1 := { s with alt := false }
    let s2 := if wasChordActive then { s1 with pressStart := none } else s1
    if wasChordActive then handleAltDRelease s2 else s2
  | .dKey =>
    let wasChordActive := s.alt ∧ s.d
    let s1 := { s with d := false }
    let s2 := if wasChordActive then { s1 with pressStart := none } else s1
    if wasChordActive then handleAltDRelease s2 else s2
  | .otherKey => s

/-- The 400 ms hold timer firing (only a pending timer can fire; any
state change cancels it). -/
def timerFire (s : Uio) : Uio :=
  if s.timerPending then setOverlayState .latched { s with timerPending := false }
  else s

/-- Events delivered to the controller. -/
inductive UEvent
  | down (k : UKey) (t : Nat)
  | up (k : UKey)
  | fire
deriving DecidableEq, Repr

/-- One event step. -/
def uioStep (s : Uio) : UEvent → Uio
  | .down k t => keydownStep k t s
  | .up k => keyupStep k s
  | .fire => timerFire s

/-- A run of events. -/
def uioRun (s : Uio) (evs : List UEvent) : Uio := evs.foldl uioStep s

/-- The initial controller state (module-level initialisers). -/
def uioInit : Uio :=
  { alt := false, d := false, overlayState := .hidden, stateBefore := none
    timerPending := false, dragging := false, pressStart := none }

/-! ## General lemmas about the map and sort helpers -/

theorem lookup_setKey_self {β : Type} :
    ∀ (m : List (Nat × β)) (k : Nat) (val : β), (setKey m k val).lookup k = some val
  | [], k, val => by simp [setKey, List.lookup]
  | (a, b) :: tl, k, val => by
    by_cases h : a = k
    · subst h; simp [setKey, List.lookup]
    · have hne : (k == a) = false := beq_eq_false_iff_ne.mpr (Ne.symm h)
      simp [setKey, h, List.lookup, hne, lookup_setKey_self tl k val]

theorem lookup_setKey_ne {β : Type} :
    ∀ (m : List (Nat × β)) (k k' : Nat) (val : β), k' ≠ k →
      (setKey m k val).lookup k' = m.lookup k'
  | [], k, k', val, h => by
    have : (k' == k) = false := beq_eq_false_iff_ne.mpr h
    simp [setKey, List.lookup, this]
  | (a, b) :: tl, k, k', val, h => by
    by_cases hk : a = k
    · subst hk
      have hne : (k' == a) = false := beq_eq_false_iff_ne.mpr h
      simp [setKey, List.lookup, hne]
    · by_cases hk' : k' = a
      · subst hk'
        simp [setKey, hk, List.lookup]
      · have hne : (k' == a) = false := beq_eq_false_iff_ne.mpr hk'
        simp [setKey, hk, List.lookup, hne, lookup_setKey_ne tl k k' val h]

theorem lookup_isSome_setKey {β : Type} (m : List (Nat × β)) (k k' : Nat) (val : β)
    (h : (m.lookup k').isSome) : ((setKey m k val).lookup k').isSome := by
  by_cases hk : k' = k
  · subst hk; simp [lookup_setKey_self]
  · rwa [lookup_setKey_ne _ _ _ _ hk]

/-- Membership in an insertion step of the stable sort. -/
theorem mem_insertScored {x z : Scored} {l : List Scored} :
    z ∈ insertScored x l ↔ z = x ∨ z ∈ l := by
  induction l with
  | nil => simp [insertScored]
  | cons y rest ih =>
    by_cases h : y.searchScore > x.searchScore
    · simp only [insertScored, if_pos h, List.mem_cons, ih]
      tauto
    · simp only [insertScored, if_neg h, List.mem_cons]
      try tauto

/-- The descending-score order relation on scored results. -/
def scoreGE (a b : Scored) : Prop := b.searchScore ≤ a.searchScore

theorem insertScored_pairwise (x : Scored) (l : List Scored)
    (h : l.Pairwise scoreGE) : (insertScored x l).Pairwise scoreGE := by
  induction l with
  | nil => simp [insertScored, scoreGE]
  | cons y rest ih =>
    rcases List.pairwise_cons.mp h with ⟨hy, hrest⟩
    by_cases hcmp : y.searchScore > x.searchScore
    · rw [insertScored, if_pos hcmp]
      refine List.pairwise_cons.mpr ⟨?_, ih hrest⟩
      intro z hz
      rcases mem_insertScored.mp hz with rfl | hz'
      · exact le_of_lt hcmp
      · exact hy z hz'
    · rw [insertScored, if_neg hcmp]
      push_neg at hcmp
      refine List.pairwise_cons.mpr ⟨?_, h⟩
      intro z hz
      rcases List.mem_cons.mp hz with rfl | hz'
      · exact hcmp
      · exact le_trans (hy z hz') hcmp

theorem sortByScoreDesc_pairwise (l : List Scored) :
    (sortByScoreDesc l).Pairwise scoreGE := by
  induction l with
  | nil => simp [sortByScoreDesc]
  | cons x rest ih => exact insertScored_pairwise x _ ih

/-! ## Demo states used by witnesses and counterexamples -/

/-- The empty vault, as on first launch. -/
def initVault : Vault :=
  { items := [], embeddings := [], vaultFiles := [], pending := [], nextId := 0, now := 1000 }

/-- A small source filesystem for the ingest scenarios. -/
def demoSrcFS : SrcFS := [("a.png", [7, 7]), ("notes.xyz", [1, 2, 3]), ("song.mp3", [9])]

/-! ## C9 — delete of an absent id is a silent no-op -/

/-- C9: for every id that is not present in the item index, `deleteItem`
completes without raising any error (the source catches the only throwing
call, and the model is a total function) and leaves the whole state — in
particular the item index — unchanged. -/
theorem C9_delete_absent_id_is_noop (v : Vault) (id : Nat)
    (h : ∀ i ∈ v.items, i.id ≠ id) : deleteItem id v = v := by
  have hfind : v.items.find? (fun i => i.id = id) = none :=
    List.find?_eq_none.mpr (fun i hi => by simpa using h i hi)
  have hfilter : v.items.filter (fun i => decide (i.id ≠ id)) = v.items :=
    List.filter_eq_self.mpr (fun i hi => by simpa using h i hi)
  simp only [deleteItem, hfind, hfilter]

/-- C9 witness: deleting id 5 from a vault whose only item has id 0. -/
def c9Vault : Vault :=
  { items := [{ id := 0, type := .text, title := "t", category := "ideas",
                content := some "c", searchableText := "c",
                metadata := { createdAt := some 1, source := "overlay" } }]
    embeddings := [], vaultFiles := [], pending := [], nextId := 1, now := 1000 }

theorem C9_delete_absent_id_is_noop_witness : deleteItem 5 c9Vault = c9Vault :=
  C9_delete_absent_id_is_noop c9Vault 5 (by decide)

/-! ## C1 — what delete actually removes -/

/-- C1 counterexample: ingest `a.png` into the empty vault (one item,
id 0, nothing else sharing its hash), then `deleteItem 0`.  The id is
gone from the item index, but the embedding record for id 0 is still
present and the blob file is still in the vault directory — contradicting
the claim that delete removes the embedding and (for a last reference)
the blob. -/
theorem C1_counterexample :
    (deleteItem 0 (addFileItem demoSrcFS "a.png" initVault).2).items = [] ∧
    ((deleteItem 0 (addFileItem demoSrcFS "a.png" initVault).2).embeddings.lookup 0).isSome = true ∧
    (deleteItem 0 (addFileItem demoSrcFS "a.png" initVault).2).vaultFiles =
      [(vaultFileName "a.png" [7, 7], [7, 7])] := by
  decide

/-- C1 amended: after `deleteItem id`, the id is absent from the item
index; but the embedding index is left untouched (the id's record
survives), and — because the source unlinks the never-assigned
`item.path` field instead of `storagePath`, with the throw caught — the
content store keeps the blob and its thumbnail whenever the stored items
carry no `path` field, which is the case for every item the constructors
produce. -/
theorem C1_delete_amended (v : Vault) (id : Nat) :
    (∀ i ∈ (deleteItem id v).items, i.id ≠ id) ∧
    (deleteItem id v).embeddings = v.embeddings ∧
    ((∀ i ∈ v.items, i.path = none) → (deleteItem id v).vaultFiles = v.vaultFiles) := by
  refine ⟨?_, rfl, ?_⟩
  · intro i hi
    have := (List.mem_filter.mp hi).2
    simpa using this
  · intro hpath
    show (match v.items.find? (fun i => i.id = id) with
      | some item =>
        if item.type = .file then
          match item.path with
          | some p => v.vaultFiles.filter (fun f => f.1 ≠ p)
          | none => v.vaultFiles
        else v.vaultFiles
      | none => v.vaultFiles) = v.vaultFiles
    cases hfind : v.items.find? (fun i => i.id = id) with
    | none => rfl
    | some item =>
      have hmem : item ∈ v.items := List.mem_of_find?_eq_some hfind
      have := hpath item hmem
      simp [this]

/-- C1 amended, witnessed on the ingest-then-delete scenario. -/
theorem C1_delete_amended_witness :
    ((deleteItem 0 (addFileItem demoSrcFS "a.png" initVault).2).vaultFiles =
      (addFileItem demoSrcFS "a.png" initVault).2.vaultFiles) :=
  (C1_delete_amended (addFileItem demoSrcFS "a.png" initVault).2 0).2.2 (by decide)

/-! ## C5 — a successful ingest persists the item and an initial embedding -/

theorem addItem_item_mem (item : Item) (v : Vault) :
    item ∈ (addItem item v).2.items := by
  simp [addItem, updateItemEmbedding, scheduleLLMEnrichment, OLLAMA_ENABLED]

theorem addItem_embedding_isSome (item : Item) (v : Vault) :
    ((addItem item v).2.embeddings.lookup item.id).isSome = true := by
  simp [addItem, updateItemEmbedding, scheduleLLMEnrichment, OLLAMA_ENABLED,
    lookup_setKey_self]

theorem createFileItem_ok (sf : SrcFS) (p : String) (v : Vault) (b : Blob)
    (htrim : trimStr p ≠ "") (hlook : sf.lookup p = some b)
    (hrej : isRejectedFile p = false) :
    createFileItem sf p v = (.ok (fileItemOf p b v), fileVaultOf p b v) := by
  simp [createFileItem, htrim, hlook, hrej]

theorem addFileItem_ok (sf : SrcFS) (p : String) (v : Vault) (b : Blob)
    (htrim : trimStr p ≠ "") (hlook : sf.lookup p = some b)
    (hrej : isRejectedFile p = false) :
    addFileItem sf p v =
      (.ok (fileItemOf p b v), (addItem (fileItemOf p b v) (fileVaultOf p b v)).2) := by
  rw [addFileItem, createFileItem_ok sf p v b htrim hlook hrej]
  rfl

/-- C5: whenever `ingest_text`, `ingest_link` or `ingest_file` returns
successfully, the created item is already in the item index and an
embedding record keyed by the item's id already exists in the embedding
index — while every enrichment stage is still only a pending task (both
`scheduleMetadataExtraction` and `scheduleLLMEnrichment` merely enqueue;
the returned state is the one observed before any background task ran). -/
theorem C5_ingest_persists_item_and_embedding :
    (∀ (text : String) (v : Vault),
      (addTextItem text v).1 ∈ (addTextItem text v).2.items ∧
      (((addTextItem text v).2.embeddings.lookup (addTextItem text v).1.id).isSome = true)) ∧
    (∀ (url : String) (title : Option String) (v : Vault),
      (addLinkItem url title v).1 ∈ (addLinkItem url title v).2.items ∧
      (((addLinkItem url title v).2.embeddings.lookup
          (addLinkItem url title v).1.id).isSome = true)) ∧
    (∀ (sf : SrcFS) (p : String) (v : Vault) (i : Item) (v' : Vault),
      addFileItem sf p v = (.ok i, v') →
      i ∈ v'.items ∧ ((v'.embeddings.lookup i.id).isSome = true)) := by
  refine ⟨?_, ?_, ?_⟩
  · intro text v
    exact ⟨addItem_item_mem _ _, addItem_embedding_isSome _ _⟩
  · intro url title v
    exact ⟨addItem_item_mem _ _, addItem_embedding_isSome _ _⟩
  · intro sf p v i v' h
    rw [addFileItem] at h
    rcases hcf : createFileItem sf p v with ⟨res, w⟩
    rw [hcf] at h
    cases res with
    | error e => simp at h
    | ok item =>
      have h1 : Except.ok (ε := String) item = Except.ok i ∧ (addItem item w).2 = v' := by
        have h' : (Except.ok (ε := String) item, (addItem item w).2) = (Except.ok i, v') := h
        exact ⟨congrArg Prod.fst h', congrArg Prod.snd h'⟩
      have hi : item = i := by simpa using h1.1
      subst hi
      rcases h1 with ⟨-, h2⟩
      subst h2
      exact ⟨addItem_item_mem _ _, addItem_embedding_isSome _ _⟩

/-- C5 witness: the text and file ingest paths on concrete inputs. -/
theorem C5_ingest_persists_item_and_embedding_witness :
    ((addTextItem "remember to review" initVault).1 ∈
        (addTextItem "remember to review" initVault).2.items) ∧
    (∃ i v', addFileItem demoSrcFS "a.png" initVault = (.ok i, v') ∧
      i ∈ v'.items ∧ ((v'.embeddings.lookup i.id).isSome = true)) := by
  have hfile := addFileItem_ok demoSrcFS "a.png" initVault [7, 7]
    (by decide) (by decide) (by decide)
  exact ⟨(C5_ingest_persists_item_and_embedding.1 "remember to review" initVault).1,
    ⟨_, _, hfile,
      C5_ingest_persists_item_and_embedding.2.2 demoSrcFS "a.png" initVault _ _ hfile⟩⟩

/-! ## C4 — which extensions are rejected -/

theorem mem_keys_of_lookup_isSome {β : Type} :
    ∀ (m : List (String × β)) (k : String), (m.lookup k).isSome →
      k ∈ m.map Prod.fst
  | [], k, h => by simp [List.lookup] at h
  | (a, b) :: tl, k, h => by
    by_cases hk : k = a
    · simp [hk]
    · have hne : (k == a) = false := beq_eq_false_iff_ne.mpr hk
      simp only [List.lookup, hne] at h
      simpa [hk] using mem_keys_of_lookup_isSome tl k h

/-- C4 counterexample: `notes.xyz` — `.xyz` is on neither list.  Contrary
to the claim, `createFileItem` does not fail with `file_rejected`: it
succeeds, the category falls back to `"documents"`, and the item is
ingested into the index. -/
theorem C4_counterexample :
    FILE_TYPE_MAP.lookup (toLowerStr (jsExtname "notes.xyz")) = none ∧
    isRejectedFile "notes.xyz" = false ∧
    (createFileItem demoSrcFS "notes.xyz" initVault).1.toOption =
      some (fileItemOf "notes.xyz" [1, 2, 3] initVault) ∧
    (fileItemOf "notes.xyz" [1, 2, 3] initVault).category = "documents" ∧
    fileItemOf "notes.xyz" [1, 2, 3] initVault ∈
      (addFileItem demoSrcFS "notes.xyz" initVault).2.items := by
  decide

/-- C4 amended: only reject-list extensions make `ingest_file` fail with
`file_rejected`; the failure carries a human-readable reason and leaves
the content store, item index and embedding index unchanged.  Allow-list
extensions are never rejected.  An extension on neither list is *not*
rejected: the file is ingested with the fallback category
`"documents"`. -/
theorem C4_file_rejection_amended :
    (∀ (sf : SrcFS) (p : String) (v : Vault) (b : Blob),
      trimStr p ≠ "" → sf.lookup p = some b → isRejectedFile p = true →
      addFileItem sf p v = (.error ("File rejected: " ++ getRejectionReason p), v)) ∧
    (∀ p : String,
      (FILE_TYPE_MAP.lookup (toLowerStr (jsExtname p))).isSome →
      isRejectedFile p = false) ∧
    (∀ (sf : SrcFS) (p : String) (v : Vault) (b : Blob),
      trimStr p ≠ "" → sf.lookup p = some b → isRejectedFile p = false →
      FILE_TYPE_MAP.lookup (toLowerStr (jsExtname p)) = none →
      addFileItem sf p v =
        (.ok (fileItemOf p b v), (addItem (fileItemOf p b v) (fileVaultOf p b v)).2) ∧
      (fileItemOf p b v).category = "documents") := by
  refine ⟨?_, ?_, ?_⟩
  · intro sf p v b htrim hlook hrej
    simp [addFileItem, createFileItem, htrim, hlook, hrej]
  · intro p h
    have hmem : toLowerStr (jsExtname p) ∈ FILE_TYPE_MAP.map Prod.fst :=
      mem_keys_of_lookup_isSome FILE_TYPE_MAP _ h
    have hall : ∀ e ∈ FILE_TYPE_MAP.map Prod.fst, REJECTED_TYPES.contains e = false := by
      decide
    exact hall _ hmem
  · intro sf p v b htrim hlook hrej hnone
    refine ⟨addFileItem_ok sf p v b htrim hlook hrej, ?_⟩
    simp [fileItemOf, detectCategoryFromFile, hnone]

/-- C4 amended, witnessed: `song.mp3` is rejected with a readable reason
and no state change; `a.png` is allow-listed and not rejected. -/
theorem C4_file_rejection_amended_witness :
    addFileItem demoSrcFS "song.mp3" initVault =
      (.error "File rejected: Audio files not supported", initVault) ∧
    isRejectedFile "a.png" = false := by
  constructor
  · have := C4_file_rejection_amended.1 demoSrcFS "song.mp3" initVault [9]
      (by decide) (by decide) (by decide)
    simpa using this
  · exact C4_file_rejection_amended.2.1 "a.png" (by decide)

/-! ## C7 — ingesting the same file twice -/

theorem addItem_vaultFiles (item : Item) (v : Vault) :
    (addItem item v).2.vaultFiles = v.vaultFiles := by
  simp [addItem, updateItemEmbedding, scheduleLLMEnrichment, OLLAMA_ENABLED]

theorem addItem_nextId (item : Item) (v : Vault) :
    (addItem item v).2.nextId = v.nextId := by
  simp [addItem, updateItemEmbedding, scheduleLLMEnrichment, OLLAMA_ENABLED]

theorem lookup_append_singleton_isSome {β : Type} :
    ∀ (l : List (String × β)) (k : String) (x : β),
      ((l ++ [(k, x)]).lookup k).isSome = true
  | [], k, x => by simp [List.lookup]
  | (a, b) :: tl, k, x => by
    by_cases hk : k = a
    · simp [List.lookup, hk]
    · have hne : (k == a) = false := beq_eq_false_iff_ne.mpr hk
      simp only [List.cons_append, List.lookup, hne]
      exact lookup_append_singleton_isSome tl k x

theorem lookup_isSome_of_mem_keys {β : Type} :
    ∀ (m : List (String × β)) (k : String), k ∈ m.map Prod.fst →
      (m.lookup k).isSome = true
  | [], k, h => by simp at h
  | (a, b) :: tl, k, h => by
    by_cases hk : k = a
    · simp [List.lookup, hk]
    · have hne : (k == a) = false := beq_eq_false_iff_ne.mpr hk
      have : k ∈ tl.map Prod.fst := by
        rcases List.mem_map.mp h with ⟨e, he, hek⟩
        rcases List.mem_cons.mp he with rfl | he'
        · exact absurd hek.symm hk
        · exact List.mem_map.mpr ⟨e, he', hek⟩
      simpa [List.lookup, hne] using lookup_isSome_of_mem_keys tl k this

theorem countP_key_eq_zero_of_lookup_none {β : Type} (l : List (String × β))
    (k : String) (h : l.lookup k = none) :
    l.countP (fun f => f.1 = k) = 0 := by
  refine List.countP_eq_zero.mpr (fun e he => ?_)
  intro hek
  have hk : k ∈ l.map Prod.fst := List.mem_map.mpr ⟨e, he, by simpa using hek⟩
  have := lookup_isSome_of_mem_keys l k hk
  rw [h] at this
  simp at this

/-- C7: ingesting the same file twice (same path, same bytes) creates two
items with distinct ids that carry the same content hash, while the
content store gains exactly one copy of the blob: the second ingest
recomputes the same hash, finds the vault file already present, and does
not rewrite it. -/
theorem C7_double_ingest_dedupes (sf : SrcFS) (p : String) (v : Vault) (b : Blob)
    (htrim : trimStr p ≠ "") (hlook : sf.lookup p = some b)
    (hrej : isRejectedFile p = false)
    (hfresh : v.vaultFiles.lookup (vaultFileName p b) = none) :
    ∃ i1 v1 i2 v2,
      addFileItem sf p v = (.ok i1, v1) ∧
      addFileItem sf p v1 = (.ok i2, v2) ∧
      i1.id ≠ i2.id ∧
      i1.hash = some (sha256 b) ∧ i2.hash = some (sha256 b) ∧
      v1.vaultFiles = v.vaultFiles ++ [(vaultFileName p b, b)] ∧
      v2.vaultFiles = v1.vaultFiles ∧
      v1.vaultFiles.countP (fun f => f.1 = vaultFileName p b) = 1 := by
  set i1 := fileItemOf p b v with hi1
  set v1 := (addItem (fileItemOf p b v) (fileVaultOf p b v)).2 with hv1
  have h1 : addFileItem sf p v = (.ok i1, v1) := addFileItem_ok sf p v b htrim hlook hrej
  have hv1files : v1.vaultFiles = v.vaultFiles ++ [(vaultFileName p b, b)] := by
    rw [hv1, addItem_vaultFiles]
    simp [fileVaultOf, scheduleMetadataExtraction, updateItemEmbedding, hfresh]
  have hv1next : v1.nextId = v.nextId + 1 := by
    rw [hv1, addItem_nextId]
    simp [fileVaultOf, scheduleMetadataExtraction, updateItemEmbedding]
  set i2 := fileItemOf p b v1 with hi2
  set v2 := (addItem (fileItemOf p b v1) (fileVaultOf p b v1)).2 with hv2
  have h2 : addFileItem sf p v1 = (.ok i2, v2) := addFileItem_ok sf p v1 b htrim hlook hrej
  have hpresent : (v1.vaultFiles.lookup (vaultFileName p b)).isSome = true := by
    rw [hv1files]; exact lookup_append_singleton_isSome _ _ _
  have hv2files : v2.vaultFiles = v1.vaultFiles := by
    rw [hv2, addItem_vaultFiles]
    simp [fileVaultOf, scheduleMetadataExtraction, updateItemEmbedding, hpresent]
  have hid1 : i1.id = v.nextId := rfl
  have hid2 : i2.id = v1.nextId := rfl
  refine ⟨i1, v1, i2, v2, h1, h2, ?_, rfl, rfl, hv1files, hv2files, ?_⟩
  · rw [hid1, hid2, hv1next]
    omega
  · rw [hv1files, List.countP_append,
      countP_key_eq_zero_of_lookup_none v.vaultFiles _ hfresh]
    simp

/-- C7, witnessed on `a.png` ingested twice into the empty vault. -/
theorem C7_double_ingest_dedupes_witness :
    ∃ i1 v1 i2 v2,
      addFileItem demoSrcFS "a.png" initVault = (.ok i1, v1) ∧
      addFileItem demoSrcFS "a.png" v1 = (.ok i2, v2) ∧
      i1.id ≠ i2.id ∧
      i1.hash = some (sha256 [7, 7]) ∧ i2.hash = some (sha256 [7, 7]) ∧
      v1.vaultFiles = initVault.vaultFiles ++ [(vaultFileName "a.png" [7, 7], [7, 7])] ∧
      v2.vaultFiles = v1.vaultFiles ∧
      v1.vaultFiles.countP (fun f => f.1 = vaultFileName "a.png" [7, 7]) = 1 :=
  C7_double_ingest_dedupes demoSrcFS "a.png" initVault [7, 7]
    (by decide) (by decide) (by decide) (by decide)

/-! ## C10 — tokens of length ≤ 2 never reach the embedding -/

theorem mem_keys_bumpWord :
    ∀ (e : Embedding) (w : String) (p : String × Nat),
      p ∈ bumpWord e w → p.1 ∈ e.map Prod.fst ∨ p.1 = w
  | [], w, p, h => by
    simp [bumpWord] at h
    simp [h]
  | (k, n) :: rest, w, p, h => by
    by_cases hk : k = w
    · rw [bumpWord, if_pos hk] at h
      rcases List.mem_cons.mp h with rfl | h'
      · exact Or.inl (by simp)
      · exact Or.inl (by simp [List.mem_map.mpr ⟨p, h', rfl⟩])
    · rw [bumpWord, if_neg hk] at h
      rcases List.mem_cons.mp h with rfl | h'
      · exact Or.inl (by simp)
      · rcases mem_keys_bumpWord rest w p h' with h'' | h''
        · exact Or.inl (by simp [h''])
        · exact Or.inr h''

theorem mem_keys_foldl_bumpWord :
    ∀ (ws : List String) (acc : Embedding) (p : String × Nat),
      p ∈ ws.foldl bumpWord acc → p.1 ∈ acc.map Prod.fst ∨ p.1 ∈ ws
  | [], acc, p, h => Or.inl (List.mem_map.mpr ⟨p, h, rfl⟩)
  | w :: rest, acc, p, h => by
    rcases mem_keys_foldl_bumpWord rest (bumpWord acc w) p h with h' | h'
    · rcases List.mem_map.mp h' with ⟨q, hq, hqp⟩
      rcases mem_keys_bumpWord acc w q hq with h'' | h''
      · exact Or.inl (hqp ▸ h'')
      · exact Or.inr (by simp [hqp ▸ h''])
    · exact Or.inr (List.mem_cons.mpr (Or.inr h'))

theorem semanticSimilarity_nil_left (e : Embedding) :
    semanticSimilarity [] e = 0 := by
  rw [semanticSimilarity]
  simp only [keysOf, dedupFirst, dedupFirstAux, List.map_nil, List.filter_nil,
    List.length_nil, List.nil_append]
  split
  · rfl
  · simp

/-- C10: `generateEmbedding` drops every whitespace-separated token of
length at most two (after lowercasing) — every key it produces is longer
than two characters — and a text consisting only of such short tokens
embeds to the empty bag, whose similarity to **every** item embedding is
0, so such a query can never match an item by content. -/
theorem C10_short_tokens_never_match :
    (∀ (text : String) (p : String × Nat),
      p ∈ generateEmbedding text → p.1.length > 2) ∧
    (∀ text : String, (∀ w ∈ splitWs (toLowerStr text), w.length ≤ 2) →
      generateEmbedding text = [] ∧
      ∀ e : Embedding, semanticSimilarity (generateEmbedding text) e = 0) := by
  constructor
  · intro text p hp
    rw [generateEmbedding] at hp
    rcases mem_keys_foldl_bumpWord _ [] p hp with h | h
    · simp at h
    · simpa using (List.mem_filter.mp h).2
  · intro text hshort
    have hempty : generateEmbedding text = [] := by
      rw [generateEmbedding]
      have : (splitWs (toLowerStr text)).filter (fun w => w.length > 2) = [] :=
        List.filter_eq_nil_iff.mpr (fun w hw => by
          have := hshort w hw
          simp only [decide_eq_true_eq]
          omega)
      rw [this]
      rfl
    refine ⟨hempty, fun e => ?_⟩
    rw [hempty]
    exact semanticSimilarity_nil_left e

/-- C10, witnessed: the key `"zebra"` of a real embedding is longer than
two characters, and the two-short-words query `"a bc"` embeds empty with
similarity 0 against a concrete item embedding. -/
theorem C10_short_tokens_never_match_witness :
    ("zebra".length > 2) ∧
    generateEmbedding "a bc" = [] ∧
    semanticSimilarity (generateEmbedding "a bc") [("zebra", 1)] = 0 := by
  refine ⟨C10_short_tokens_never_match.1 "zebra zebra cat" ("zebra", 2) (by decide), ?_, ?_⟩
  · exact (C10_short_tokens_never_match.2 "a bc" (by decide)).1
  · exact (C10_short_tokens_never_match.2 "a bc" (by decide)).2 [("zebra", 1)]

/-! ## C3 — the embedding store across the search path -/

/-- A plain text item used by the search scenarios. -/
def mkDemoText (id created : Nat) : Item :=
  { id := id, type := .text, title := "t", category := "ideas",
    content := some "c", searchableText := "c",
    metadata := { createdAt := some created, source := "overlay" } }

/-- One item, no embeddings yet: the configuration that triggers the
search-path backfill. -/
def c3Vault : Vault :=
  { items := [mkDemoText 0 500], embeddings := [], vaultFiles := [],
    pending := [], nextId := 1, now := 1000 }

/-- C3 counterexample: a vault holding one item and an empty embedding
store.  Contrary to the claim, `smartSearch` computes and persists an
embedding for the item on the query path: the store is no longer empty
after the query and holds a record keyed by the item's id. -/
theorem C3_counterexample :
    c3Vault.embeddings = [] ∧
    (smartSearch "anything" c3Vault).2.embeddings ≠ [] ∧
    ((smartSearch "anything" c3Vault).2.embeddings.lookup 0).isSome = true := by
  decide

theorem lookup_foldl_setKey_isSome (f : Item → EmbRecord) :
    ∀ (items : List Item) (acc : List (Nat × EmbRecord)) (k : Nat),
      (k ∈ items.map Item.id ∨ (acc.lookup k).isSome = true) →
      ((items.foldl (fun acc item => setKey acc item.id (f item)) acc).lookup k).isSome = true
  | [], acc, k, h => by
    rcases h with h | h
    · simp at h
    · simpa using h
  | item :: rest, acc, k, h => by
    apply lookup_foldl_setKey_isSome f rest (setKey acc item.id (f item)) k
    rcases h with h | h
    · rcases List.mem_map.mp h with ⟨j, hj, hjk⟩
      rcases List.mem_cons.mp hj with rfl | hj'
      · exact Or.inr (by rw [← hjk, lookup_setKey_self]; rfl)
      · exact Or.inl (List.mem_map.mpr ⟨j, hj', hjk⟩)
    · exact Or.inr (lookup_isSome_setKey acc item.id k (f item) h)

/-- C3 amended: `smartSearch` leaves the embedding store unchanged in
every state where the store is nonempty or no items exist; but in the one
remaining configuration — items exist and the store is empty — the query
path itself computes and persists an embedding record for every item (the
"one-time migration" runs inside `smartSearch`, not as a startup task in
the enrichment context). -/
theorem C3_search_backfill_amended :
    (∀ (q : String) (v : Vault), v.embeddings ≠ [] ∨ v.items = [] →
      (smartSearch q v).2 = v) ∧
    (∀ (q : String) (v : Vault), v.items ≠ [] → v.embeddings = [] →
      (smartSearch q v).2.embeddings = backfillEmbeddings v.items ∧
      ∀ i ∈ v.items, (((smartSearch q v).2.embeddings.lookup i.id).isSome = true)) := by
  constructor
  · intro q v h
    rw [smartSearch]
    by_cases hi : v.items.isEmpty
    · simp [hi]
    · have hne : v.embeddings ≠ [] := by
        rcases h with h | h
        · exact h
        · exact absurd (by simp [h] : v.items.isEmpty = true) hi
      have hbe : v.embeddings.isEmpty = false := by
        cases e : v.embeddings with
        | nil => exact absurd e hne
        | cons a tl => simp
      simp [hi, hbe]
  · intro q v hitems hemb
    have hi : v.items.isEmpty = false := by
      cases e : v.items with
      | nil => exact absurd e hitems
      | cons a tl => simp
    have hbe : v.embeddings.isEmpty = true := by simp [hemb]
    have hstate : (smartSearch q v).2.embeddings = backfillEmbeddings v.items := by
      rw [smartSearch]
      simp [hi, hbe]
    refine ⟨hstate, fun i him => ?_⟩
    rw [hstate]
    exact lookup_foldl_setKey_isSome backfillRecordOf v.items [] i.id
      (Or.inl (List.mem_map.mpr ⟨i, him, rfl⟩))

/-- C3 amended, witnessed: a query on a vault with a nonempty embedding
store leaves the whole state alone; a query on `c3Vault` (one item, empty
store) persists a record for the item's id. -/
theorem C3_search_backfill_amended_witness :
    (smartSearch "zebra" initVault).2 = initVault ∧
    (((smartSearch "anything" c3Vault).2.embeddings.lookup 0).isSome = true) := by
  constructor
  · exact C3_search_backfill_amended.1 "zebra" initVault (Or.inr (by decide))
  · exact (C3_search_backfill_amended.2 "anything" c3Vault (by decide) (by decide)).2
      (mkDemoText 0 500) (by decide)

/-! ## C2 — what actually orders the search results -/

/-- Embedding-record metadata for the search demo. -/
def demoEmbMeta (created : Nat) : EmbMeta :=
  { createdAt := some created, source := "overlay", type := .text,
    category := "ideas", storagePath := none }

/-- Four text items and their stored embedding vectors.  `now` is 100
days (in ms): items 0, 1, 2 are far in the past (recency 0), item 3 was
created `now` (recency 1).  Item 0 is the only one sharing a word with
the query `"zebra"`; items 1 and 2 tie completely. -/
def demoSearchVault : Vault :=
  { items := [mkDemoText 0 0, mkDemoText 1 0, mkDemoText 2 86400000,
              mkDemoText 3 8640000000]
    embeddings :=
      [(0, { vector := [("zebra", 1), ("qqqa", 1), ("qqqb", 1), ("qqqc", 1)],
             metadata := demoEmbMeta 0 }),
       (1, { vector := [("yak", 1)], metadata := demoEmbMeta 0 }),
       (2, { vector := [("yak", 1)], metadata := demoEmbMeta 86400000 }),
       (3, { vector := [("yak", 1)], metadata := demoEmbMeta 8640000000 })]
    vaultFiles := [], pending := [], nextId := 4, now := 8640000000 }

/-- The intent `parseSearchIntent` produces for the query `"zebra"`. -/
def zebraIntent : SearchIntent :=
  { timeFilter := none, timePhrase := none, contentType := none,
    topicKeywords := some "zebra", originalQuery := "zebra" }

/-- The scored results of the demo query, with normalised scores:
item 0 scores 0.25·0.6+0.1 = 1/4 on similarity 1/4; item 3 scores
0.3+0.1 = 2/5 on similarity 0; items 1 and 2 both score 1/10. -/
def c2Scored0 : Scored :=
  { item := mkDemoText 0 0, searchScore := 1/4, semanticScore := 1/4,
    recencyScore := 0, typeScore := 1 }

def c2Scored1 : Scored :=
  { item := mkDemoText 1 0, searchScore := 1/10, semanticScore := 0,
    recencyScore := 0, typeScore := 1 }

def c2Scored2 : Scored :=
  { item := mkDemoText 2 86400000, searchScore := 1/10, semanticScore := 0,
    recencyScore := 0, typeScore := 1 }

def c2Scored3 : Scored :=
  { item := mkDemoText 3 8640000000, searchScore := 2/5, semanticScore := 0,
    recencyScore := 1, typeScore := 1 }

/-- C2 counterexample: on the demo vault the query `"zebra"` returns the
order [3, 0, 1, 2].  Item 3 has similarity 0 yet outranks item 0 whose
similarity is 1/4 — the recency boost enters the ranking, refuting
"ordered by descending cosine similarity with no recency boost".  Items
1 and 2 tie exactly, item 2 has the larger `created_at`, yet item 1 (the
earlier stored one) precedes it — ties keep stored order, refuting the
"descending created_at, then ascending id" tie-break. -/
theorem C2_counterexample :
    ((smartSearch "zebra" demoSearchVault).1.results.map (fun r => r.item.id)) =
      [3, 0, 1, 2] ∧
    ((smartSearch "zebra" demoSearchVault).1.results.map (fun r => r.semanticScore)) =
      [0, 1/4, 0, 0] ∧
    ((smartSearch "zebra" demoSearchVault).1.results.map (fun r => r.searchScore)) =
      [2/5, 1/4, 1/10, 1/10] ∧
    ((0 : ℚ) < 1/4) ∧
    itemCreatedAt (mkDemoText 1 0) = some 0 ∧
    itemCreatedAt (mkDemoText 2 86400000) = some 86400000 := by
  have hintent : parseSearchIntent "zebra" 8640000000 = zebraIntent := by decide
  have hq : generateEmbedding "zebra" = [("zebra", 1)] := by decide
  have hres : (smartSearch "zebra" demoSearchVault).1.results =
      [c2Scored3, c2Scored0, c2Scored1, c2Scored2] := by
    simp only [smartSearch, demoSearchVault, mkDemoText, demoEmbMeta]
    rw [show (8640000000 : Nat) = 8640000000 from rfl] at hintent
    simp only [hintent, hq, List.isEmpty_cons, Option.getD_some, zebraIntent]
    simp [passesTimeFilter, passesTypeFilter, zebraIntent, scoreItem,
      semanticSimilarity, keysOf, dedupFirst, dedupFirstAux, recencyScoreOf,
      typeScoreOf, itemCreatedAt, MS_PER_DAY, List.lookup]
    norm_num [sortByScoreDesc, insertScored, c2Scored0, c2Scored1, c2Scored2,
      c2Scored3, mkDemoText, Scored.mk.injEq, Item.mk.injEq, ItemMeta.mk.injEq]
  rw [hres]
  refine ⟨rfl, rfl, rfl, by norm_num, rfl, rfl⟩

/-- C2 amended: the result list is ordered by non-increasing *hybrid*
score — `0.6·Jaccard-similarity + 0.3·recency + 0.1·type-boost`, so
recency and content-type relevance do enter the ranking — equal scores
keep the stored item order (the stable JS sort), and at most 20 results
are returned. -/
theorem C2_ranking_amended (q : String) (v : Vault) :
    ((smartSearch q v).1.results).Pairwise scoreGE ∧
    (smartSearch q v).1.results.length ≤ 20 := by
  rw [smartSearch]
  cases e : v.items.isEmpty with
  | true => simp [e, scoreGE]
  | false =>
    simp only [e, Bool.false_eq_true, if_false]
    exact ⟨List.Pairwise.sublist (List.take_sublist _ _) (sortByScoreDesc_pairwise _),
      List.length_take_le _ _⟩

/-! ## C6 — the pressing / latched cycle of the overlay machine -/

/-- C6: the chord machine honours the documented press/hold cycle.  With
no drag in progress: completing the chord in `hidden` or `latched`
enters `pressing`, remembering where it came from and starting the hold
timer; releasing the chord while still `pressing` (the timer has not
fired) goes to `latched` when the press came from `hidden` and to
`hidden` when it came from `latched`; the hold timer firing in
`pressing` goes to `latched`; and releasing the chord in `latched`
causes no transition — the overlay stays latched. -/
theorem C6_press_hold_cycle :
    (∀ (s : Uio) (t : Nat), s.dragging = false → s.alt = true → s.d = false →
      (s.overlayState = .hidden ∨ s.overlayState = .latched) →
      ((keydownStep .dKey t s).overlayState = .pressing ∧
       (keydownStep .dKey t s).stateBefore = some s.overlayState ∧
       (keydownStep .dKey t s).timerPending = true)) ∧
    (∀ (s : Uio) (t : Nat), s.dragging = false → s.d = true → s.alt = false →
      (s.overlayState = .hidden ∨ s.overlayState = .latched) →
      ((keydownStep .altKey t s).overlayState = .pressing ∧
       (keydownStep .altKey t s).stateBefore = some s.overlayState ∧
       (keydownStep .altKey t s).timerPending = true)) ∧
    (∀ (s : Uio) (k : UKey), k ≠ .otherKey → s.alt = true → s.d = true →
      s.overlayState = .pressing → s.stateBefore = some .hidden →
      (keyupStep k s).overlayState = .latched) ∧
    (∀ (s : Uio) (k : UKey), k ≠ .otherKey → s.alt = true → s.d = true →
      s.overlayState = .pressing → s.stateBefore = some .latched →
      (keyupStep k s).overlayState = .hidden) ∧
    (∀ s : Uio, s.overlayState = .pressing → s.timerPending = true →
      (timerFire s).overlayState = .latched) ∧
    (∀ (s : Uio) (k : UKey), s.overlayState = .latched →
      ((keyupStep k s).overlayState = .latched ∧
       (keyupStep k s).stateBefore = s.stateBefore)) := by
  refine ⟨?_, ?_, ?_, ?_, ?_, ?_⟩
  · intro s t hdrag halt hd hstate
    rcases hstate with h | h <;>
      simp [keydownStep, handleAltDChord, setOverlayState, hdrag, halt, hd, h,
        apply_ite (f := Uio.overlayState), apply_ite (f := Uio.stateBefore),
        apply_ite (f := Uio.timerPending)]
  · intro s t hdrag hd halt hstate
    rcases hstate with h | h <;>
      simp [keydownStep, handleAltDChord, setOverlayState, hdrag, halt, hd, h,
        apply_ite (f := Uio.overlayState), apply_ite (f := Uio.stateBefore),
        apply_ite (f := Uio.timerPending)]
  · intro s k hk halt hd hpress hbefore
    cases k with
    | otherKey => exact absurd rfl hk
    | altKey => simp [keyupStep, handleAltDRelease, setOverlayState, halt, hd, hpress, hbefore]
    | dKey => simp [keyupStep, handleAltDRelease, setOverlayState, halt, hd, hpress, hbefore]
  · intro s k hk halt hd hpress hbefore
    cases k with
    | otherKey => exact absurd rfl hk
    | altKey => simp [keyupStep, handleAltDRelease, setOverlayState, halt, hd, hpress, hbefore]
    | dKey => simp [keyupStep, handleAltDRelease, setOverlayState, halt, hd, hpress, hbefore]
  · intro s hpress htimer
    simp [timerFire, setOverlayState, hpress, htimer]
  · intro s k hlatched
    cases k with
    | otherKey => simp [keyupStep, hlatched]
    | altKey =>
      by_cases ha : s.alt = true <;> by_cases hb : s.d = true <;>
        simp [keyupStep, handleAltDRelease, hlatched, ha, hb]
    | dKey =>
      by_cases ha : s.alt = true <;> by_cases hb : s.d = true <;>
        simp [keyupStep, handleAltDRelease, hlatched, ha, hb]

/-- C6, witnessed along the press–hold–release–tap scenario of the spec. -/
theorem C6_press_hold_cycle_witness :
    ((keydownStep .dKey 5 { uioInit with alt := true }).overlayState = .pressing) ∧
    ((timerFire (uioRun uioInit [.down .altKey 0, .down .dKey 5])).overlayState = .latched) ∧
    ((keyupStep .dKey
        { alt := true, d := true, overlayState := .latched, stateBefore := none,
          timerPending := false, dragging := false, pressStart := none }).overlayState =
      .latched) ∧
    ((keyupStep .altKey
        { alt := true, d := true, overlayState := .pressing, stateBefore := some .latched,
          timerPending := true, dragging := false, pressStart := some 0 }).overlayState =
      .hidden) := by
  refine ⟨(C6_press_hold_cycle.1 { uioInit with alt := true } 5 rfl rfl rfl (Or.inl rfl)).1,
    ?_, ?_, ?_⟩
  · exact C6_press_hold_cycle.2.2.2.2.1 (uioRun uioInit [.down .altKey 0, .down .dKey 5])
      (by decide) (by decide)
  · exact (C6_press_hold_cycle.2.2.2.2.2 _ .dKey rfl).1
  · exact C6_press_hold_cycle.2.2.2.1 _ .altKey (by decide) rfl rfl rfl rfl

/-! ## C8 — there is no 50 ms key-up debounce -/

/-- C8 counterexample: from the initial state, press Alt at t=0, press D
at t=10 (pressing, from hidden), release D at t=20 — the release takes
effect immediately: the machine transitions to `latched` on the spot —
then press D again at t=40, well inside the alleged ≈50 ms window.  Were
the key-up annulled, the run would still be in the original press from
`hidden` (`stateBeforePressing = hidden`, as in the two-event run); in
fact the machine started a fresh press from `latched`. -/
theorem C8_counterexample :
    (uioRun uioInit [.down .altKey 0, .down .dKey 10, .up .dKey]).overlayState =
      .latched ∧
    (uioRun uioInit
        [.down .altKey 0, .down .dKey 10, .up .dKey, .down .dKey 40]).overlayState =
      .pressing ∧
    (uioRun uioInit
        [.down .altKey 0, .down .dKey 10, .up .dKey, .down .dKey 40]).stateBefore =
      some .latched ∧
    (uioRun uioInit [.down .altKey 0, .down .dKey 10]).stateBefore = some .hidden := by
  decide

/-- C8 amended: key-up events are processed immediately, with no
debounce window — the key is recorded up, `pressStartTime` is cleared and
the release transition fires at once (pressing-from-hidden latches,
pressing-from-latched hides); a later matching key-down starts a new
chord press instead of annulling the key-up.  Key-down events for a key
already recorded as down leave the tracked key state unchanged, though
they still invoke the chord handler whenever the chord is active. -/
theorem C8_release_immediate_amended :
    (∀ s : Uio, s.alt = true → s.d = true → s.overlayState = .pressing →
      s.stateBefore = some .hidden →
      ((keyupStep .dKey s).d = false ∧ (keyupStep .dKey s).pressStart = none ∧
       (keyupStep .dKey s).overlayState = .latched)) ∧
    (∀ s : Uio, s.alt = true → s.d = true → s.overlayState = .pressing →
      s.stateBefore = some .latched →
      ((keyupStep .dKey s).d = false ∧ (keyupStep .dKey s).overlayState = .hidden)) ∧
    (∀ (s : Uio) (t : Nat), s.d = true →
      keydownStep .dKey t s = (if s.alt = true then handleAltDChord s else s)) ∧
    (∀ (s : Uio) (t : Nat), s.alt = true →
      keydownStep .altKey t s = (if s.d = true then handleAltDChord s else s)) := by
  refine ⟨?_, ?_, ?_, ?_⟩
  · intro s halt hd hpress hbefore
    simp [keyupStep, handleAltDRelease, setOverlayState, halt, hd, hpress, hbefore]
  · intro s halt hd hpress hbefore
    simp [keyupStep, handleAltDRelease, setOverlayState, halt, hd, hpress, hbefore]
  · intro s t hd
    by_cases ha : s.alt = true <;> simp [keydownStep, hd, ha]
  · intro s t halt
    by_cases hb : s.d = true <;> simp [keydownStep, halt, hb]

/-- C8 amended, witnessed at the state reached after Alt then D. -/
theorem C8_release_immediate_amended_witness :
    ((keyupStep .dKey (uioRun uioInit [.down .altKey 0, .down .dKey 10])).d = false ∧
     (keyupStep .dKey (uioRun uioInit [.down .altKey 0, .down .dKey 10])).pressStart = none ∧
     (keyupStep .dKey (uioRun uioInit [.down .altKey 0, .down .dKey 10])).overlayState =
       .latched) ∧
    keydownStep .dKey 15 (uioRun uioInit [.down .altKey 0, .down .dKey 10]) =
      handleAltDChord (uioRun uioInit [.down .altKey 0, .down .dKey 10]) := by
  constructor
  · exact C8_release_immediate_amended.1 (uioRun uioInit [.down .altKey 0, .down .dKey 10])
      (by decide) (by decide) (by decide) (by decide)
  · have h := C8_release_immediate_amended.2.2.1
      (uioRun uioInit [.down .altKey 0, .down .dKey 10]) 15 (by decide)
    rw [h, if_pos (by decide)]

end AltDump
